import Mathlib

/-!
Verification of the WPILOG decoding pipeline of cougar-analysis.

The development shallowly embeds the two source modules that make up the
decoding core:

* `data_log_reader.py` — frame decoder (`DataLogIterator.__next__`,
  `_readVarInt`), record classification (`isStart`, `isFinish`,
  `isSetMetadata`, `isControl`), control/data payload decoding
  (`getStartData`, `getFinishEntry`, `getSetMetadataData`, the typed
  getters) and the global-header checks (`isValid`, `getVersion`).
* `log_helpers.py` — the stream-table reconstruction walk
  (`convert_data_log_to_list`, `extract_value_from_entry`).

Modelling conventions:

* A Python `bytes` buffer is a `List Nat` of byte values; indexing that the
  source guards by an explicit length check is rendered with `List.getD`,
  and the one unguarded byte read (`_getControlType`) is additionally given
  an option-valued rendering so that its bounds-safety can be stated.
* Python slices `buf[a:b]` (which truncate silently) are `pySlice`.
* Python `str` values are kept as their UTF-8 byte lists; string literals
  of the source appear through `ascii`.
* A raised `TypeError` is `Option.none` / an `Option`-valued result; the
  `try/except TypeError` blocks of `convert_data_log_to_list` become
  `match` on that option, and an exception that no handler catches makes
  the whole walk return `none`.
* Python floats read out of payloads are decoded exactly: an IEEE-754 bit
  pattern becomes `some (q : ℚ)` for finite values and `none` for
  infinities/NaN.
-/

/-- Python slice `buf[a:b]` (for `a ≤ b`): truncates silently at the ends. -/
def pySlice (buf : List Nat) (a b : Nat) : List Nat :=
  (buf.drop a).take (b - a)

/-- `int.from_bytes(bs, byteorder="little", signed=False)`. -/
def leVal : List Nat → Nat
  | [] => 0
  | b :: bs => b + 256 * leVal bs

/-- `int.from_bytes(bs, byteorder="little", signed=True)` for `bs` of the
given length (used with exactly 8 bytes by `getInteger`). -/
def leValSigned (bs : List Nat) : Int :=
  if 2 ^ (8 * bs.length - 1) ≤ leVal bs then
    (leVal bs : Int) - 2 ^ (8 * bs.length)
  else
    (leVal bs : Int)

/-- Byte list of an ASCII string literal of the source. -/
def ascii (s : String) : List Nat :=
  s.data.map Char.toNat

/-- Exact value of an IEEE-754 binary64 bit pattern; `none` for Inf/NaN. -/
def decodeF64 (w : Nat) : Option ℚ :=
  let sign := w >>> 63
  let ex := (w >>> 52) &&& 0x7FF
  let mant := w &&& 0xFFFFFFFFFFFFF
  if ex = 0x7FF then none
  else
    let mag : ℚ :=
      if ex = 0 then (mant : ℚ) / 2 ^ 52 * (2 : ℚ) ^ (-1022 : ℤ)
      else (1 + (mant : ℚ) / 2 ^ 52) * (2 : ℚ) ^ ((ex : ℤ) - 1023)
    some (if sign = 1 then -mag else mag)

/-- Exact value of an IEEE-754 binary32 bit pattern; `none` for Inf/NaN. -/
def decodeF32 (w : Nat) : Option ℚ :=
  let sign := w >>> 31
  let ex := (w >>> 23) &&& 0xFF
  let mant := w &&& 0x7FFFFF
  if ex = 0xFF then none
  else
    let mag : ℚ :=
      if ex = 0 then (mant : ℚ) / 2 ^ 23 * (2 : ℚ) ^ (-126 : ℤ)
      else (1 + (mant : ℚ) / 2 ^ 23) * (2 : ℚ) ^ ((ex : ℤ) - 127)
    some (if sign = 1 then -mag else mag)

/-- Split a byte list into consecutive chunks of width `w` (the final chunk
may be short, as in `array.array.frombytes` after the length-multiple
check has already passed).  Used with `w = 4` and `w = 8` only. -/
def chunkBytesAux : Nat → Nat → List Nat → List (List Nat)
  | 0, _, _ => []
  | _ + 1, _, [] => []
  | fuel + 1, w, b :: rest =>
      (b :: rest).take w :: chunkBytesAux fuel w ((b :: rest).drop w)

def chunkBytes (w : Nat) (bs : List Nat) : List (List Nat) :=
  chunkBytesAux bs.length w bs

/-! ## `data_log_reader.py`: records and their payload decoding -/

def kControlStart : Nat := 0
def kControlFinish : Nat := 1
def kControlSetMetadata : Nat := 2

/-- `DataLogRecord`: one framed record — stream/entry id, raw microsecond
timestamp, payload bytes. -/
structure DataLogRecord where
  entry : Nat
  timestamp : Nat
  data : List Nat
  deriving DecidableEq

/-- `StartRecordData`: decoded payload of a start (stream-declare) control
record. -/
structure StartRecordData where
  entry : Nat
  name : List Nat
  type : List Nat
  metadata : List Nat
  deriving DecidableEq

/-- `MetadataRecordData`: decoded payload of a set-metadata control record. -/
structure MetadataRecordData where
  entry : Nat
  metadata : List Nat
  deriving DecidableEq

namespace DataLogRecord

/-- `DataLogRecord.isControl`. -/
def isControl (r : DataLogRecord) : Bool :=
  r.entry == 0

/-- `DataLogRecord._getControlType` — reads `data[0]`; the read is guarded
by a length check at every call site, so here it is total (`getD`). -/
def getControlType (r : DataLogRecord) : Nat :=
  r.data.getD 0 0

/-- `DataLogRecord.isStart`. -/
def isStart (r : DataLogRecord) : Bool :=
  r.entry == 0 && 17 ≤ r.data.length && r.getControlType == kControlStart

/-- `DataLogRecord.isFinish`. -/
def isFinish (r : DataLogRecord) : Bool :=
  r.entry == 0 && r.data.length == 5 && r.getControlType == kControlFinish

/-- `DataLogRecord.isSetMetadata`. -/
def isSetMetadata (r : DataLogRecord) : Bool :=
  r.entry == 0 && 9 ≤ r.data.length && r.getControlType == kControlSetMetadata

/-- `DataLogRecord._getControlType` with the byte read made explicit: Python
`self.data[0]` raises `IndexError` on an empty payload, so the read itself
is option-valued here. -/
def getControlTypeChecked (r : DataLogRecord) : Option Nat :=
  r.data.head?

/-- `DataLogRecord.isStart` with the short-circuit evaluation order of the
Python `and` chain made explicit: the tag byte is read only after the
length bound has been established. -/
def isStartChecked (r : DataLogRecord) : Option Bool :=
  if r.entry = 0 then
    if 17 ≤ r.data.length then
      r.getControlTypeChecked.map (· == kControlStart)
    else some false
  else some false

/-- `DataLogRecord.isFinish`, evaluation order made explicit. -/
def isFinishChecked (r : DataLogRecord) : Option Bool :=
  if r.entry = 0 then
    if r.data.length = 5 then
      r.getControlTypeChecked.map (· == kControlFinish)
    else some false
  else some false

/-- `DataLogRecord.isSetMetadata`, evaluation order made explicit. -/
def isSetMetadataChecked (r : DataLogRecord) : Option Bool :=
  if r.entry = 0 then
    if 9 ≤ r.data.length then
      r.getControlTypeChecked.map (· == kControlSetMetadata)
    else some false
  else some false

/-- `DataLogRecord._readInnerString`: 4-byte little-endian length prefix,
then that many bytes; `none` models the raised `TypeError` when the string
would overrun the payload. -/
def readInnerString (data : List Nat) (pos : Nat) : Option (List Nat × Nat) :=
  let size := leVal (pySlice data pos (pos + 4))
  if pos + 4 + size > data.length then none
  else some (pySlice data (pos + 4) (pos + 4 + size), pos + 4 + size)

/-- `DataLogRecord.getStartData`. -/
def getStartData (r : DataLogRecord) : Option StartRecordData :=
  if !r.isStart then none
  else do
    let entry := leVal (pySlice r.data 1 5)
    let (name, p1) ← readInnerString r.data 5
    let (ty, p2) ← readInnerString r.data p1
    let (metadata, _) ← readInnerString r.data p2
    some ⟨entry, name, ty, metadata⟩

/-- `DataLogRecord.getFinishEntry`. -/
def getFinishEntry (r : DataLogRecord) : Option Nat :=
  if !r.isFinish then none
  else some (leVal (pySlice r.data 1 5))

/-- `DataLogRecord.getSetMetadataData`. -/
def getSetMetadataData (r : DataLogRecord) : Option MetadataRecordData :=
  if !r.isSetMetadata then none
  else do
    let entry := leVal (pySlice r.data 1 5)
    let (metadata, _) ← readInnerString r.data 5
    some ⟨entry, metadata⟩

/-- `DataLogRecord.getBoolean`. -/
def getBoolean (r : DataLogRecord) : Option Bool :=
  if r.data.length ≠ 1 then none
  else some (r.data.getD 0 0 != 0)

/-- `DataLogRecord.getInteger`. -/
def getInteger (r : DataLogRecord) : Option Int :=
  if r.data.length ≠ 8 then none
  else some (leValSigned r.data)

/-- `DataLogRecord.getFloat`. -/
def getFloat (r : DataLogRecord) : Option (Option ℚ) :=
  if r.data.length ≠ 4 then none
  else some (decodeF32 (leVal r.data))

/-- `DataLogRecord.getDouble`. -/
def getDouble (r : DataLogRecord) : Option (Option ℚ) :=
  if r.data.length ≠ 8 then none
  else some (decodeF64 (leVal r.data))

/-- `DataLogRecord.getString` — the whole payload is the string. -/
def getString (r : DataLogRecord) : List Nat :=
  r.data

/-- `DataLogRecord.getBooleanArray` — every byte is one element. -/
def getBooleanArray (r : DataLogRecord) : List Bool :=
  r.data.map (· != 0)

/-- `DataLogRecord.getIntegerArray`. -/
def getIntegerArray (r : DataLogRecord) : Option (List Int) :=
  if r.data.length % 8 ≠ 0 then none
  else some ((chunkBytes 8 r.data).map leValSigned)

/-- `DataLogRecord.getFloatArray`. -/
def getFloatArray (r : DataLogRecord) : Option (List (Option ℚ)) :=
  if r.data.length % 4 ≠ 0 then none
  else some ((chunkBytes 4 r.data).map fun c => decodeF32 (leVal c))

/-- `DataLogRecord.getDoubleArray`. -/
def getDoubleArray (r : DataLogRecord) : Option (List (Option ℚ)) :=
  if r.data.length % 8 ≠ 0 then none
  else some ((chunkBytes 8 r.data).map fun c => decodeF64 (leVal c))

/-- The element-reading loop of `DataLogRecord.getStringArray`: read `n`
length-prefixed strings sequentially from `pos`. -/
def readStrings (data : List Nat) : Nat → Nat → Option (List (List Nat))
  | 0, _ => some []
  | n + 1, pos => do
    let (val, pos') ← readInnerString data pos
    let rest ← readStrings data n pos'
    some (val :: rest)

/-- `DataLogRecord.getStringArray`.  The feasibility bound
`size > (len(data) - 4) / 4` is Python float division of ints compared
against an int, rendered exactly over `ℤ`. -/
def getStringArray (r : DataLogRecord) : Option (List (List Nat)) :=
  let size := leVal (pySlice r.data 0 4)
  if 4 * (size : ℤ) > (r.data.length : ℤ) - 4 then none
  else readStrings r.data size 4

end DataLogRecord

/-! ## `data_log_reader.py`: frame decoder (`DataLogIterator`) and reader -/

/-- `DataLogIterator._readVarInt`: little-endian fixed-width integer read,
`val |= buf[pos + i] << (i * 8)` for `i` in `range(len)`. -/
def readVarInt (buf : List Nat) (pos len : Nat) : Nat :=
  (List.range len).foldl (fun val i => val ||| (buf.getD (pos + i) 0) <<< (i * 8)) 0

/-- `entryLen` of `DataLogIterator.__next__`: bits [0:2) of the descriptor
byte at `pos`, plus one. -/
def entryLen (buf : List Nat) (pos : Nat) : Nat :=
  (buf.getD pos 0 &&& 0x3) + 1

/-- `sizeLen`: bits [2:4) of the descriptor byte, plus one. -/
def sizeLen (buf : List Nat) (pos : Nat) : Nat :=
  ((buf.getD pos 0 >>> 2) &&& 0x3) + 1

/-- `timestampLen`: bits [4:7) of the descriptor byte, plus one. -/
def timestampLen (buf : List Nat) (pos : Nat) : Nat :=
  ((buf.getD pos 0 >>> 4) &&& 0x7) + 1

/-- `headerLen = 1 + entryLen + sizeLen + timestampLen`. -/
def declaredHeaderLen (buf : List Nat) (pos : Nat) : Nat :=
  1 + entryLen buf pos + sizeLen buf pos + timestampLen buf pos

/-- The `entry` field of the record headed at `pos`. -/
def declaredEntry (buf : List Nat) (pos : Nat) : Nat :=
  readVarInt buf (pos + 1) (entryLen buf pos)

/-- The `size` field of the record headed at `pos`. -/
def declaredSize (buf : List Nat) (pos : Nat) : Nat :=
  readVarInt buf (pos + 1 + entryLen buf pos) (sizeLen buf pos)

/-- The `timestamp` field of the record headed at `pos`. -/
def declaredTimestamp (buf : List Nat) (pos : Nat) : Nat :=
  readVarInt buf (pos + 1 + entryLen buf pos + sizeLen buf pos) (timestampLen buf pos)

/-- One step of `DataLogIterator.__next__`: either `StopIteration` (`none`)
or the framed record together with the advanced cursor.  The local
variables of the Python method are the named functions above. -/
def nextRecord (buf : List Nat) (pos : Nat) : Option (DataLogRecord × Nat) :=
  if buf.length < pos + 4 then none
  else if buf.length < pos + declaredHeaderLen buf pos then none
  else if buf.length < pos + declaredHeaderLen buf pos + declaredSize buf pos then none
  else some
    (⟨declaredEntry buf pos, declaredTimestamp buf pos,
        pySlice buf (pos + declaredHeaderLen buf pos)
          (pos + declaredHeaderLen buf pos + declaredSize buf pos)⟩,
      pos + declaredHeaderLen buf pos + declaredSize buf pos)

/-- The record sequence produced by repeatedly calling
`DataLogIterator.__next__` from `pos`, with an explicit fuel parameter
standing in for the unbounded Python loop. -/
def readRecordsFuel (buf : List Nat) : Nat → Nat → List DataLogRecord
  | 0, _ => []
  | fuel + 1, pos =>
      match nextRecord buf pos with
      | none => []
      | some (r, pos') => r :: readRecordsFuel buf fuel pos'

/-- All records the iterator yields from `pos`.  `buf.length + 1` steps of
fuel always suffice because every successful step advances the cursor
(see `readRecordsFuel_fuel_irrel`). -/
def readRecords (buf : List Nat) (pos : Nat) : List DataLogRecord :=
  readRecordsFuel buf (buf.length + 1) pos

/-- `DataLogReader.getVersion`. -/
def getVersion (buf : List Nat) : Nat :=
  if buf.length < 12 then 0
  else leVal (pySlice buf 6 8)

/-- `DataLogReader.isValid`. -/
def isValid (buf : List Nat) : Bool :=
  decide (12 ≤ buf.length) && (pySlice buf 0 6 == ascii "WPILOG")
    && decide (0x0100 ≤ getVersion buf)

/-- `DataLogReader.__iter__`: record iteration starts right after the
extra header, whose length is the u32 at bytes 8–11 (read unguarded, with
Python's silently-truncating slice). -/
def iterStartPos (buf : List Nat) : Nat :=
  12 + leVal (pySlice buf 8 12)

/-! ## `log_helpers.py`: stream table walk -/

/-- `DecodedValue`: the value slot of one output row, one case per branch
of `extract_value_from_entry`.  `timeString` holds the decoded microsecond
integer that the `systemTime` branch formats into a date-time string, and
`noneValue` is the Python `None` left when no branch matches. -/
inductive DecodedValue where
  | timeString (micros : Int)
  | double (q : Option ℚ)
  | int64 (n : Int)
  | string (bytes : List Nat)
  | boolean (b : Bool)
  | booleanArray (bs : List Bool)
  | doubleArray (qs : List (Option ℚ))
  | floatArray (qs : List (Option ℚ))
  | int64Array (ns : List Int)
  | stringArray (ss : List (List Nat))
  | noneValue
  deriving DecidableEq

/-- One output row `[timestamp, entry.name, value]`. -/
structure OutputTuple where
  timestamp : ℚ
  name : List Nat
  value : DecodedValue
  deriving DecidableEq

/-- `extract_value_from_entry`; `none` models an uncaught `TypeError`
raised by one of the typed getters. -/
def extract_value_from_entry (entry : StartRecordData) (record : DataLogRecord) :
    Option OutputTuple :=
  let timestamp : ℚ := (record.timestamp : ℚ) / 1000000
  let value? : Option DecodedValue :=
    if entry.name = ascii "systemTime" ∧ entry.type = ascii "int64" then
      record.getInteger.map .timeString
    else if entry.type = ascii "double" then record.getDouble.map .double
    else if entry.type = ascii "int64" then record.getInteger.map .int64
    else if entry.type = ascii "string" ∨ entry.type = ascii "json" then
      some (.string record.getString)
    else if entry.type = ascii "boolean" then record.getBoolean.map .boolean
    else if entry.type = ascii "boolean[]" then some (.booleanArray record.getBooleanArray)
    else if entry.type = ascii "double[]" then record.getDoubleArray.map .doubleArray
    else if entry.type = ascii "float[]" then record.getFloatArray.map .floatArray
    else if entry.type = ascii "int64[]" then record.getIntegerArray.map .int64Array
    else if entry.type = ascii "string[]" then record.getStringArray.map .stringArray
    else some .noneValue
  value?.map fun value => ⟨timestamp, entry.name, value⟩

/-- `entries.get(k, None)` on the dictionary of declared streams. -/
def dictGet (entries : List (Nat × StartRecordData)) (k : Nat) :
    Option StartRecordData :=
  (entries.find? fun p => p.1 == k).map (·.2)

/-- `entries[k] = v`. -/
def dictSet (entries : List (Nat × StartRecordData)) (k : Nat) (v : StartRecordData) :
    List (Nat × StartRecordData) :=
  (k, v) :: entries.filter fun p => p.1 != k

/-- `del entries[k]`. -/
def dictDel (entries : List (Nat × StartRecordData)) (k : Nat) :
    List (Nat × StartRecordData) :=
  entries.filter fun p => p.1 != k

/-- The mutable state of the `convert_data_log_to_list` loop: the output
list, the aggregate error flag (Python: `error` set to the fixed message
string), and the `entries` dictionary. -/
structure WalkState where
  output : List OutputTuple
  error : Bool
  entries : List (Nat × StartRecordData)
  deriving DecidableEq

/-- One iteration of the `for record in reader` loop of
`convert_data_log_to_list`.  Control-record decode failures are caught
(`except TypeError`) and set the error flag; the data-record branch calls
`extract_value_from_entry` outside any handler, so a getter failure there
(`none`) aborts the walk. -/
def processRecord (st : WalkState) (record : DataLogRecord) : Option WalkState :=
  if record.isStart then
    some (match record.getStartData with
      | some data => { st with entries := dictSet st.entries data.entry data }
      | none => { st with error := true })
  else if record.isFinish then
    some (match record.getFinishEntry with
      | some entry =>
          if (dictGet st.entries entry).isSome then
            { st with entries := dictDel st.entries entry }
          else st
      | none => { st with error := true })
  else if record.isSetMetadata then
    some (match record.getSetMetadataData with
      | some _ => st
      | none => { st with error := true })
  else if record.isControl then
    some { st with error := true }
  else
    match dictGet st.entries record.entry with
    | none => some st
    | some entry =>
        (extract_value_from_entry entry record).map fun tup =>
          { st with output := st.output ++ [tup] }

/-- The record loop of `convert_data_log_to_list` over a record list. -/
def walkRecords : WalkState → List DataLogRecord → Option WalkState
  | st, [] => some st
  | st, r :: rs =>
      match processRecord st r with
      | none => none
      | some st' => walkRecords st' rs

/-- `convert_data_log_to_list`: returns `[output, error]`, or `none` when
an uncaught exception escapes the loop. -/
def convert_data_log_to_list (input : List Nat) :
    Option (List OutputTuple × Bool) :=
  (walkRecords ⟨[], false, []⟩ (readRecords input (iterStartPos input))).map
    fun st => (st.output, st.error)

/-! ## Synthetic record encoder

Modelled from the spec: the repository only reads logs, so the encoder used
to state the round-trip property follows the wire format of spec §6 —
descriptor byte with bits [0:2) = entryIdLen-1, [2:4) = sizeLen-1,
[4:7) = timestampLen-1, then the three little-endian fields (stream id,
payload size, timestamp) and the payload. -/

/-- Little-endian encoding of `n` into exactly `w` bytes. -/
def encodeLE : Nat → Nat → List Nat
  | 0, _ => []
  | w + 1, n => n % 256 :: encodeLE w (n / 256)

/-- Modelled from the spec: a synthetic record with header field widths
`(e, s, t)` for stream id, payload size and timestamp. -/
def encodeRecord (e s t streamId timestamp : Nat) (payload : List Nat) : List Nat :=
  ((e - 1) ||| ((s - 1) <<< 2) ||| ((t - 1) <<< 4)) ::
    (encodeLE e streamId ++ encodeLE s payload.length ++ encodeLE t timestamp ++ payload)

/-! ## Helper lemmas: little-endian fields and the frame decoder step -/

theorem readVarInt_zero (buf : List Nat) (pos : Nat) : readVarInt buf pos 0 = 0 := rfl

theorem readVarInt_succ (buf : List Nat) (pos w : Nat) :
    readVarInt buf pos (w + 1) =
      readVarInt buf pos w ||| (buf.getD (pos + w) 0) <<< (w * 8) := by
  unfold readVarInt
  rw [List.range_succ, List.foldl_append]
  rfl

theorem lor_shift_add (a b k : Nat) (h : a < 2 ^ k) :
    a ||| b <<< k = a + b * 2 ^ k := by
  have h2 := Nat.mul_add_lt_is_or h b
  rw [Nat.shiftLeft_eq, Nat.lor_comm, mul_comm b (2 ^ k), ← h2]
  ring

theorem encodeLE_length (w n : Nat) : (encodeLE w n).length = w := by
  induction w generalizing n with
  | zero => rfl
  | succ w ih => simp [encodeLE, ih]

theorem encodeLE_succ_back (w n : Nat) :
    encodeLE (w + 1) n = encodeLE w n ++ [n / 256 ^ w % 256] := by
  induction w generalizing n with
  | zero => simp [encodeLE]
  | succ w ih =>
      rw [encodeLE, ih (n / 256)]
      rw [encodeLE]
      simp [Nat.div_div_eq_div_mul, pow_succ, mul_comm]

theorem readVarInt_encodeLE (w : Nat) (n : Nat) (pre post : List Nat) :
    readVarInt (pre ++ (encodeLE w n ++ post)) pre.length w = n % 256 ^ w := by
  induction w generalizing post with
  | zero => simp [readVarInt_zero, Nat.mod_one]
  | succ w ih =>
      rw [readVarInt_succ]
      rw [encodeLE_succ_back, List.append_assoc]
      rw [ih ([n / 256 ^ w % 256] ++ post)]
      have hidx : (pre ++ (encodeLE w n ++ ([n / 256 ^ w % 256] ++ post))).getD
          (pre.length + w) 0 = n / 256 ^ w % 256 := by
        rw [List.getD_eq_getElem?_getD, ← List.append_assoc]
        rw [List.getElem?_append_right (by simp [encodeLE_length])]
        simp [encodeLE_length]
      rw [hidx]
      have h256 : (2 : Nat) ^ (w * 8) = 256 ^ w := by
        rw [mul_comm, pow_mul]; norm_num
      have hb : n % 256 ^ w < 2 ^ (w * 8) := by
        rw [h256]; exact Nat.mod_lt _ (by positivity)
      rw [lor_shift_add _ _ _ hb]
      rw [h256, pow_succ]
      rw [Nat.mod_mul]
      ring

theorem descriptor_bits :
    ∀ a < 4, ∀ b < 4, ∀ c < 8,
      (a ||| b <<< 2 ||| c <<< 4) &&& 0x3 = a ∧
      ((a ||| b <<< 2 ||| c <<< 4) >>> 2) &&& 0x3 = b ∧
      ((a ||| b <<< 2 ||| c <<< 4) >>> 4) &&& 0x7 = c := by
  decide

theorem declaredHeaderLen_ge_four (buf : List Nat) (pos : Nat) :
    4 ≤ declaredHeaderLen buf pos := by
  unfold declaredHeaderLen entryLen sizeLen timestampLen
  omega

theorem nextRecord_bounds {buf : List Nat} {pos : Nat} {r : DataLogRecord} {p' : Nat}
    (h : nextRecord buf pos = some (r, p')) :
    pos + 4 ≤ p' ∧ p' ≤ buf.length := by
  have h4 := declaredHeaderLen_ge_four buf pos
  unfold nextRecord at h
  split_ifs at h with h1 h2 h3
  simp only [Option.some.injEq, Prod.mk.injEq] at h
  omega

theorem readRecordsFuel_fuel_irrel (buf : List Nat) :
    ∀ f1 f2 pos, buf.length - pos < f1 → buf.length - pos < f2 →
      readRecordsFuel buf f1 pos = readRecordsFuel buf f2 pos := by
  intro f1
  induction f1 with
  | zero => omega
  | succ f ih =>
      intro f2 pos h1 h2
      match f2, h2 with
      | f2 + 1, h2 =>
        rw [readRecordsFuel, readRecordsFuel]
        cases hn : nextRecord buf pos with
        | none => rfl
        | some rp =>
            obtain ⟨hadv, hle⟩ := @nextRecord_bounds buf pos rp.1 rp.2 (by rw [hn])
            obtain ⟨r, p'⟩ := rp
            dsimp only
            rw [ih f2 p' (by simp_all; omega) (by simp_all; omega)]

theorem readRecordsFuel_length_le (buf : List Nat) :
    ∀ fuel pos, (readRecordsFuel buf fuel pos).length ≤ (buf.length - pos) / 4 := by
  intro fuel
  induction fuel with
  | zero => intro pos; simp [readRecordsFuel]
  | succ f ih =>
      intro pos
      rw [readRecordsFuel]
      cases hn : nextRecord buf pos with
      | none => simp
      | some rp =>
          obtain ⟨hadv, hle⟩ := @nextRecord_bounds buf pos rp.1 rp.2 (by rw [hn])
          have := ih rp.2
          simp only [List.length_cons]
          omega

/-- **C2.** For every streamId, timestamp and payload, and every header
field width combination `e ∈ [1,4]`, `s ∈ [1,4]`, `t ∈ [1,8]` wide enough
to represent them, encoding a record per the wire format (descriptor byte
with bits [0:2) = e-1, [2:4) = s-1, [4:7) = t-1, then the three
little-endian fields and the payload) and decoding it with
`DataLogIterator.__next__` yields exactly the original
`(streamId, timestamp, payload)` and advances the cursor by
`headerLength + payloadSize = (1 + e + s + t) + payload.length`. -/
theorem c2_record_round_trip (e s t streamId timestamp : Nat) (payload : List Nat)
    (he1 : 1 ≤ e) (he2 : e ≤ 4) (hs1 : 1 ≤ s) (hs2 : s ≤ 4)
    (ht1 : 1 ≤ t) (ht2 : t ≤ 8)
    (hsid : streamId < 256 ^ e) (hlen : payload.length < 256 ^ s)
    (hts : timestamp < 256 ^ t) :
    nextRecord (encodeRecord e s t streamId timestamp payload) 0 =
      some (⟨streamId, timestamp, payload⟩, (1 + e + s + t) + payload.length) := by
  obtain ⟨hd1, hd2, hd3⟩ :=
    descriptor_bits (e - 1) (by omega) (s - 1) (by omega) (t - 1) (by omega)
  set d := (e - 1) ||| (s - 1) <<< 2 ||| (t - 1) <<< 4 with hdDef
  set buf := encodeRecord e s t streamId timestamp payload with hbufDef
  have hbuf : buf = [d] ++ (encodeLE e streamId ++ (encodeLE s payload.length ++
      (encodeLE t timestamp ++ payload))) := by
    simp [hbufDef, encodeRecord]
  have hgetd : buf.getD 0 0 = d := by rw [hbuf]; rfl
  have hEL : entryLen buf 0 = e := by
    unfold entryLen; rw [hgetd, hd1]; omega
  have hSL : sizeLen buf 0 = s := by
    unfold sizeLen; rw [hgetd, hd2]; omega
  have hTL : timestampLen buf 0 = t := by
    unfold timestampLen; rw [hgetd, hd3]; omega
  have hHL : declaredHeaderLen buf 0 = 1 + e + s + t := by
    unfold declaredHeaderLen; rw [hEL, hSL, hTL]
  have hlenbuf : buf.length = 1 + e + s + t + payload.length := by
    rw [hbuf]; simp [encodeLE_length]; omega
  have hDE : declaredEntry buf 0 = streamId := by
    unfold declaredEntry
    rw [hEL]
    have h := readVarInt_encodeLE e streamId [d]
      (encodeLE s payload.length ++ (encodeLE t timestamp ++ payload))
    simp only [List.length_cons, List.length_nil] at h
    rw [hbuf, show (0 + 1 : Nat) = 1 by omega, h, Nat.mod_eq_of_lt hsid]
  have hDS : declaredSize buf 0 = payload.length := by
    unfold declaredSize
    rw [hEL, hSL]
    have h := readVarInt_encodeLE s payload.length ([d] ++ encodeLE e streamId)
      (encodeLE t timestamp ++ payload)
    rw [List.append_assoc] at h
    simp only [List.length_append, List.length_cons, List.length_nil,
      encodeLE_length] at h
    rw [hbuf, show (0 + 1 + e : Nat) = 0 + 1 + e by rfl]
    rw [show (0 + 1 + e : Nat) = 1 + e by omega, h, Nat.mod_eq_of_lt hlen]
  have hDT : declaredTimestamp buf 0 = timestamp := by
    unfold declaredTimestamp
    rw [hEL, hSL, hTL]
    have h := readVarInt_encodeLE t timestamp
      ([d] ++ (encodeLE e streamId ++ encodeLE s payload.length)) payload
    rw [List.append_assoc, List.append_assoc] at h
    simp only [List.length_append, List.length_cons, List.length_nil,
      encodeLE_length] at h
    rw [hbuf, show (0 + 1 + e + s : Nat) = 1 + (e + s) by omega, h,
      Nat.mod_eq_of_lt hts]
  have hslice : pySlice buf (1 + e + s + t) (1 + e + s + t + payload.length)
      = payload := by
    have hsplit : buf = ([d] ++ (encodeLE e streamId ++ (encodeLE s payload.length ++
        encodeLE t timestamp))) ++ payload := by
      rw [hbuf]; simp [List.append_assoc]
    have hpre : ([d] ++ (encodeLE e streamId ++ (encodeLE s payload.length ++
        encodeLE t timestamp))).length = 1 + e + s + t := by
      simp [encodeLE_length]; omega
    unfold pySlice
    rw [Nat.add_sub_cancel_left, hsplit, ← hpre, List.drop_left, List.take_length]
  unfold nextRecord
  rw [hHL, hDS, hDE, hDT]
  simp only [Nat.zero_add]
  rw [if_neg (by omega), if_neg (by rw [hlenbuf]; omega),
    if_neg (by rw [hlenbuf]; omega), hslice]

/-! ## Helper lemmas: dictionaries, classifiers, payload decoding -/

theorem dictGet_dictDel_self (entries : List (Nat × StartRecordData)) (X : Nat) :
    dictGet (dictDel entries X) X = none := by
  unfold dictGet dictDel
  rw [Option.map_eq_none', List.find?_eq_none]
  intro p hp
  have := (List.mem_filter.mp hp).2
  simpa using this

theorem dictDel_absent (entries : List (Nat × StartRecordData)) (X : Nat)
    (h : dictGet entries X = none) : dictDel entries X = entries := by
  unfold dictGet at h
  rw [Option.map_eq_none', List.find?_eq_none] at h
  unfold dictDel
  rw [List.filter_eq_self]
  intro p hp
  simpa using h p hp

theorem dictGet_dictSet_self (entries : List (Nat × StartRecordData)) (X : Nat)
    (d : StartRecordData) : dictGet (dictSet entries X d) X = some d := by
  simp [dictGet, dictSet, List.find?]

theorem isStart_of_entry_ne_zero {r : DataLogRecord} (h : r.entry ≠ 0) :
    r.isStart = false := by
  simp [DataLogRecord.isStart, h]

theorem isFinish_of_entry_ne_zero {r : DataLogRecord} (h : r.entry ≠ 0) :
    r.isFinish = false := by
  simp [DataLogRecord.isFinish, h]

theorem isSetMetadata_of_entry_ne_zero {r : DataLogRecord} (h : r.entry ≠ 0) :
    r.isSetMetadata = false := by
  simp [DataLogRecord.isSetMetadata, h]

theorem isControl_of_entry_ne_zero {r : DataLogRecord} (h : r.entry ≠ 0) :
    r.isControl = false := by
  simp [DataLogRecord.isControl, h]

/-- `processRecord` on a data record (nonzero id) on a live stream is the
extraction step. -/
theorem processRecord_data {st : WalkState} {r : DataLogRecord} (h : r.entry ≠ 0) :
    processRecord st r =
      match dictGet st.entries r.entry with
      | none => some st
      | some entry =>
          (extract_value_from_entry entry r).map fun tup =>
            { st with output := st.output ++ [tup] } := by
  unfold processRecord
  rw [isStart_of_entry_ne_zero h, isFinish_of_entry_ne_zero h,
    isSetMetadata_of_entry_ne_zero h, isControl_of_entry_ne_zero h]
  rfl

theorem readStrings_length (data : List Nat) :
    ∀ n pos l, DataLogRecord.readStrings data n pos = some l → l.length = n := by
  intro n
  induction n with
  | zero =>
      intro pos l h
      simp [DataLogRecord.readStrings] at h
      simp [← h]
  | succ n ih =>
      intro pos l h
      rw [DataLogRecord.readStrings] at h
      cases h1 : DataLogRecord.readInnerString data pos with
      | none => rw [h1] at h; simp at h
      | some vp =>
          rw [h1] at h
          cases h2 : DataLogRecord.readStrings data n vp.2 with
          | none => simp [h2] at h
          | some rest =>
              simp [h2] at h
              rw [← h]
              simp [ih vp.2 rest h2]

theorem decodeF64_value_325 : decodeF64 0x400A000000000000 = some (13 / 4 : ℚ) := by
  simp only [decodeF64]
  have hexff : ¬ ((0x400A000000000000 : Nat) >>> 52 &&& 2047 = 2047) := by decide
  have hsign : ¬ ((0x400A000000000000 : Nat) >>> 63 = 1) := by decide
  have hex0 : ¬ ((0x400A000000000000 : Nat) >>> 52 &&& 2047 = 0) := by decide
  have hex : (0x400A000000000000 : Nat) >>> 52 &&& 2047 = 1024 := by decide
  have hmant : (0x400A000000000000 : Nat) &&& 0xFFFFFFFFFFFFF = 2814749767106560 := by
    decide
  rw [if_neg hexff, if_neg hsign, if_neg hex0, hmant, hex]
  simp only [Option.some.injEq]
  norm_num

/-! ## Claim theorems -/

/-- **C3.** Record iteration yields exactly the fully-framed records and
stops silently: a step ends iteration precisely when fewer than 4 bytes
remain past the cursor, or the declared header does not fit, or the
declared payload does not fit; and a buffer whose last record is missing
its final 2 payload bytes yields exactly the records fully framed before
it. -/
theorem c3_truncation_stops_iteration :
    (∀ (buf : List Nat) (pos : Nat),
      nextRecord buf pos = none ↔
        buf.length < pos + 4 ∨
        buf.length < pos + declaredHeaderLen buf pos ∨
        buf.length < pos + declaredHeaderLen buf pos + declaredSize buf pos) ∧
    readRecords ([87, 80, 73, 76, 79, 71, 0, 1, 0, 0, 0, 0] ++
        [0, 1, 2, 0, 170, 187] ++ [0, 1, 4, 0, 1, 2]) 12 =
      [⟨1, 0, [170, 187]⟩] := by
  refine ⟨fun buf pos => ⟨fun h => ?_, fun h => ?_⟩, by decide⟩
  · unfold nextRecord at h
    split_ifs at h with h1 h2 h3
    · exact Or.inl h1
    · exact Or.inr (Or.inl h2)
    · exact Or.inr (Or.inr h3)
  · unfold nextRecord
    split_ifs with h1 h2 h3 <;> first | rfl | (rcases h with h | h | h <;> omega)

/-- **C4.** `isValid` is true iff the buffer has length at least 12, its
bytes 0–5 are the magic tag `WPILOG`, and the little-endian u16 version at
bytes 6–7 is at least 0x0100. -/
theorem c4_isValid_characterization (buf : List Nat) :
    isValid buf = true ↔
      12 ≤ buf.length ∧ pySlice buf 0 6 = ascii "WPILOG" ∧
        0x0100 ≤ leVal (pySlice buf 6 8) := by
  unfold isValid getVersion
  simp only [Bool.and_eq_true, decide_eq_true_eq, beq_iff_eq]
  constructor
  · rintro ⟨⟨h1, h2⟩, h3⟩
    rw [if_neg (by omega)] at h3
    exact ⟨h1, h2, h3⟩
  · rintro ⟨h1, h2, h3⟩
    exact ⟨⟨h1, h2⟩, by rw [if_neg (by omega)]; exact h3⟩

/-- Witness for **C2**: a concrete record with widths `(e,s,t) = (2,1,3)`,
stream id 4660, timestamp 70000 and a 2-byte payload round-trips. -/
theorem c2_record_round_trip_witness :
    nextRecord (encodeRecord 2 1 3 4660 70000 [9, 255]) 0 =
      some (⟨4660, 70000, [9, 255]⟩, (1 + 2 + 1 + 3) + 2) :=
  c2_record_round_trip 2 1 3 4660 70000 [9, 255]
    (by norm_num) (by norm_num) (by norm_num) (by norm_num) (by norm_num)
    (by norm_num) (by norm_num) (by norm_num) (by norm_num)

/-- **C6.** `getStringArray` reads the first 4 payload bytes as a
little-endian u32 element count `n`; if `n > (payloadLength - 4) / 4` the
decode fails (`TypeError`, modelled as `none`); otherwise it reads `n`
length-prefixed strings sequentially (so a successful decode has exactly
`n` elements), and the payload `[n=2][len=3]"abc"[len=2]"xy"` decodes to
`["abc", "xy"]`. -/
theorem c6_string_array (r : DataLogRecord) :
    (4 * (leVal (pySlice r.data 0 4) : ℤ) > (r.data.length : ℤ) - 4 →
      r.getStringArray = none) ∧
    (¬ 4 * (leVal (pySlice r.data 0 4) : ℤ) > (r.data.length : ℤ) - 4 →
      r.getStringArray =
        DataLogRecord.readStrings r.data (leVal (pySlice r.data 0 4)) 4) ∧
    (∀ l, r.getStringArray = some l → l.length = leVal (pySlice r.data 0 4)) ∧
    DataLogRecord.getStringArray
        ⟨1, 0, [2, 0, 0, 0, 3, 0, 0, 0, 97, 98, 99, 2, 0, 0, 0, 120, 121]⟩ =
      some [ascii "abc", ascii "xy"] := by
  refine ⟨fun h => ?_, fun h => ?_, fun l hl => ?_, by decide⟩
  · unfold DataLogRecord.getStringArray
    rw [if_pos h]
  · unfold DataLogRecord.getStringArray
    rw [if_neg h]
  · simp only [DataLogRecord.getStringArray] at hl
    split_ifs at hl
    exact readStrings_length r.data _ 4 l hl

/-- Witness for **C6**: a payload that declares 5 elements in only 4 bytes
violates the feasibility bound and fails to decode. -/
theorem c6_string_array_witness :
    DataLogRecord.getStringArray ⟨1, 0, [5, 0, 0, 0]⟩ = none :=
  (c6_string_array ⟨1, 0, [5, 0, 0, 0]⟩).1 (by decide)

/-- **C9.** Frame iteration terminates on every finite buffer: the declared
header length is always at least 4, every successful step advances the
cursor by `headerLength + payloadSize` (hence by at least 4) while staying
inside the buffer — so the remaining-bytes measure strictly decreases —
and the number of records yielded from `pos` is at most
`(bufferLength - pos) / 4`. -/
theorem c9_iteration_terminates (buf : List Nat) (pos : Nat) :
    4 ≤ declaredHeaderLen buf pos ∧
    (∀ r p', nextRecord buf pos = some (r, p') →
      p' = pos + declaredHeaderLen buf pos + declaredSize buf pos ∧
      pos + 4 ≤ p' ∧ p' ≤ buf.length ∧ buf.length - p' < buf.length - pos) ∧
    (readRecords buf pos).length ≤ (buf.length - pos) / 4 := by
  refine ⟨declaredHeaderLen_ge_four buf pos, fun r p' h => ?_, ?_⟩
  · have hb := nextRecord_bounds h
    have hp : p' = pos + declaredHeaderLen buf pos + declaredSize buf pos := by
      unfold nextRecord at h
      split_ifs at h
      simp only [Option.some.injEq, Prod.mk.injEq] at h
      omega
    exact ⟨hp, hb.1, hb.2, by omega⟩
  · unfold readRecords
    exact readRecordsFuel_length_le buf _ pos

/-- Witness for **C9**: one successful step on a concrete 6-byte buffer
advances the cursor from 0 to 6 and shrinks the remaining-byte measure. -/
theorem c9_iteration_terminates_witness :
    6 = 0 + declaredHeaderLen [0, 1, 2, 0, 170, 187] 0 +
        declaredSize [0, 1, 2, 0, 170, 187] 0 ∧
    0 + 4 ≤ 6 ∧ 6 ≤ [0, 1, 2, 0, 170, 187].length ∧
    [0, 1, 2, 0, 170, 187].length - 6 < [0, 1, 2, 0, 170, 187].length - 0 :=
  (c9_iteration_terminates [0, 1, 2, 0, 170, 187] 0).2.1
    ⟨1, 0, [170, 187]⟩ 6 (by decide)

/-- **C10.** The control classifiers are total and never read a payload
byte out of bounds: even with the byte read of `_getControlType` made
explicitly partial, `isStart`, `isFinish` and `isSetMetadata` always
return a value (matching the total boolean versions), and on an empty
payload each length bound (≥ 17, = 5, ≥ 9) fails before the tag byte is
inspected, so all three classify the record as not matching. -/
theorem c10_classifiers_total (r : DataLogRecord) :
    r.isStartChecked.isSome = true ∧
    r.isFinishChecked.isSome = true ∧
    r.isSetMetadataChecked.isSome = true ∧
    r.isStartChecked = some r.isStart ∧
    r.isFinishChecked = some r.isFinish ∧
    r.isSetMetadataChecked = some r.isSetMetadata ∧
    DataLogRecord.isStartChecked ⟨r.entry, r.timestamp, []⟩ = some false ∧
    DataLogRecord.isFinishChecked ⟨r.entry, r.timestamp, []⟩ = some false ∧
    DataLogRecord.isSetMetadataChecked ⟨r.entry, r.timestamp, []⟩ = some false := by
  obtain ⟨e, ts, data⟩ := r
  have hstart : ∀ d : List Nat, DataLogRecord.isStartChecked ⟨e, ts, d⟩ =
      some (DataLogRecord.isStart ⟨e, ts, d⟩) := by
    intro d
    unfold DataLogRecord.isStartChecked DataLogRecord.isStart
      DataLogRecord.getControlTypeChecked DataLogRecord.getControlType
    cases d with
    | nil => simp
    | cons b bs => simp; split_ifs <;> simp_all
  have hfinish : ∀ d : List Nat, DataLogRecord.isFinishChecked ⟨e, ts, d⟩ =
      some (DataLogRecord.isFinish ⟨e, ts, d⟩) := by
    intro d
    unfold DataLogRecord.isFinishChecked DataLogRecord.isFinish
      DataLogRecord.getControlTypeChecked DataLogRecord.getControlType
    cases d with
    | nil => simp
    | cons b bs => simp; split_ifs <;> simp_all
  have hmeta : ∀ d : List Nat, DataLogRecord.isSetMetadataChecked ⟨e, ts, d⟩ =
      some (DataLogRecord.isSetMetadata ⟨e, ts, d⟩) := by
    intro d
    unfold DataLogRecord.isSetMetadataChecked DataLogRecord.isSetMetadata
      DataLogRecord.getControlTypeChecked DataLogRecord.getControlType
    cases d with
    | nil => simp
    | cons b bs => simp; split_ifs <;> simp_all
  refine ⟨by rw [hstart]; rfl, by rw [hfinish]; rfl, by rw [hmeta]; rfl,
    hstart data, hfinish data, hmeta data, ?_, ?_, ?_⟩
  · rw [hstart []]; simp [DataLogRecord.isStart, DataLogRecord.getControlType,
      kControlStart]
  · rw [hfinish []]; simp [DataLogRecord.isFinish]
  · rw [hmeta []]; simp [DataLogRecord.isSetMetadata, DataLogRecord.getControlType,
      kControlSetMetadata]

theorem isFinish_components {r : DataLogRecord} (h : r.isFinish = true) :
    r.entry = 0 ∧ r.data.length = 5 := by
  simp only [DataLogRecord.isFinish, Bool.and_eq_true, beq_iff_eq] at h
  exact ⟨h.1.1, h.1.2⟩

theorem isStart_false_of_isFinish {r : DataLogRecord} (h : r.isFinish = true) :
    r.isStart = false := by
  obtain ⟨-, h5⟩ := isFinish_components h
  simp [DataLogRecord.isStart, h5]

/-- **C7.** Processing a set-metadata (MetadataUpdate) control record
leaves the stream table completely unchanged (and appends no output): the
payload is decoded or an error reported, but the decoded metadata is never
written onto any stream descriptor. -/
theorem c7_metadata_update_leaves_table (st : WalkState) (r : DataLogRecord)
    (h1 : r.isStart = false) (h2 : r.isFinish = false) (h3 : r.isSetMetadata = true) :
    ∃ st', processRecord st r = some st' ∧ st'.entries = st.entries ∧
      st'.output = st.output := by
  unfold processRecord
  rw [h1, h2, h3]
  simp only [Bool.false_eq_true, if_false, if_true]
  cases hm : r.getSetMetadataData with
  | some md => exact ⟨st, rfl, rfl, rfl⟩
  | none => exact ⟨{ st with error := true }, rfl, rfl, rfl⟩

/-- Witness for **C7**: a concrete set-metadata record (tag 2, 9-byte
payload) leaves a concrete table untouched. -/
theorem c7_metadata_update_leaves_table_witness :
    ∃ st', processRecord ⟨[], false, [(3, ⟨3, [], [], []⟩)]⟩
        ⟨0, 0, [2, 1, 0, 0, 0, 0, 0, 0, 0]⟩ = some st' ∧
      st'.entries = [(3, ⟨3, [], [], []⟩)] ∧ st'.output = [] :=
  c7_metadata_update_leaves_table ⟨[], false, [(3, ⟨3, [], [], []⟩)]⟩
    ⟨0, 0, [2, 1, 0, 0, 0, 0, 0, 0, 0]⟩ (by decide) (by decide) (by decide)

/-- **C5.** After a StreamRetire (finish) record for id `X` is processed
the descriptor for `X` is removed from the table (removing an absent id is
a no-op, not an error), a subsequent data record referencing `X` is
silently dropped — it changes nothing and raises no error — and a new
StreamDeclare for `X` re-installs a descriptor so that `X` resolves
again. -/
theorem c5_retire_removes_and_drops (st : WalkState) (X : Nat)
    (r1 r2 r3 : DataLogRecord) (d : StartRecordData)
    (h1 : r1.isFinish = true) (h2 : r1.getFinishEntry = some X)
    (h3 : r2.entry = X) (hX : X ≠ 0)
    (h4 : r3.isStart = true) (h5 : r3.getStartData = some d) (h6 : d.entry = X) :
    processRecord st r1 = some { st with entries := dictDel st.entries X } ∧
    (dictGet st.entries X = none → dictDel st.entries X = st.entries) ∧
    dictGet (dictDel st.entries X) X = none ∧
    processRecord { st with entries := dictDel st.entries X } r2 =
      some { st with entries := dictDel st.entries X } ∧
    processRecord { st with entries := dictDel st.entries X } r3 =
      some { st with entries := dictSet (dictDel st.entries X) X d } ∧
    dictGet (dictSet (dictDel st.entries X) X d) X = some d := by
  refine ⟨?_, dictDel_absent st.entries X, dictGet_dictDel_self st.entries X,
    ?_, ?_, dictGet_dictSet_self _ X d⟩
  · unfold processRecord
    rw [isStart_false_of_isFinish h1, h1]
    simp only [Bool.false_eq_true, if_false, if_true]
    rw [h2]
    dsimp only
    by_cases hp : (dictGet st.entries X).isSome
    · rw [if_pos hp]
    · rw [if_neg hp, dictDel_absent st.entries X (Option.not_isSome_iff_eq_none.mp hp)]
  · rw [processRecord_data (by rw [h3]; exact hX), h3]
    have : dictGet (WalkState.entries { st with entries := dictDel st.entries X }) X
        = none := dictGet_dictDel_self st.entries X
    rw [this]
  · unfold processRecord
    rw [h4]
    simp only [if_true]
    rw [h5]
    dsimp only
    rw [h6]

/-- Witness for **C5**: retiring stream id 7, then a data record on id 7,
then re-declaring id 7, on a concrete state. -/
theorem c5_retire_removes_and_drops_witness :
    processRecord ⟨[], false, [(7, ⟨7, [], [], []⟩)]⟩ ⟨0, 0, [1, 7, 0, 0, 0]⟩ =
      some ⟨[], false, dictDel [(7, ⟨7, [], [], []⟩)] 7⟩ ∧
    (dictGet [(7, ⟨7, [], [], []⟩)] 7 = none →
      dictDel [(7, ⟨7, [], [], []⟩)] 7 = [(7, ⟨7, [], [], []⟩)]) ∧
    dictGet (dictDel [(7, ⟨7, [], [], []⟩)] 7) 7 = none ∧
    processRecord ⟨[], false, dictDel [(7, ⟨7, [], [], []⟩)] 7⟩ ⟨7, 0, [1, 2, 3]⟩ =
      some ⟨[], false, dictDel [(7, ⟨7, [], [], []⟩)] 7⟩ ∧
    processRecord ⟨[], false, dictDel [(7, ⟨7, [], [], []⟩)] 7⟩
        ⟨0, 0, [0, 7, 0, 0, 0, 0, 0, 0, 0, 0, 0, 0, 0, 0, 0, 0, 0]⟩ =
      some ⟨[], false, dictSet (dictDel [(7, ⟨7, [], [], []⟩)] 7) 7 ⟨7, [], [], []⟩⟩ ∧
    dictGet (dictSet (dictDel [(7, ⟨7, [], [], []⟩)] 7) 7 ⟨7, [], [], []⟩) 7 =
      some ⟨7, [], [], []⟩ :=
  c5_retire_removes_and_drops ⟨[], false, [(7, ⟨7, [], [], []⟩)]⟩ 7
    ⟨0, 0, [1, 7, 0, 0, 0]⟩ ⟨7, 0, [1, 2, 3]⟩
    ⟨0, 0, [0, 7, 0, 0, 0, 0, 0, 0, 0, 0, 0, 0, 0, 0, 0, 0, 0]⟩ ⟨7, [], [], []⟩
    (by decide) (by decide) rfl (by decide) (by decide) (by decide) rfl

/-- **C8.** A data record on a declared stream of valueType `double` whose
8-byte payload is the little-endian IEEE-754 encoding of 3.25 makes the
reconstructor append exactly one Output Tuple: value 3.25 (= 13/4),
streamName the descriptor's name, and timestamp the raw microsecond
timestamp divided by 1,000,000. -/
theorem c8_double_payload_emits_value (st : WalkState) (id ts eid : Nat)
    (name meta : List Nat) (hid : id ≠ 0)
    (hlook : dictGet st.entries id = some ⟨eid, name, ascii "double", meta⟩) :
    processRecord st ⟨id, ts, [0, 0, 0, 0, 0, 0, 10, 64]⟩ =
      some { st with output := st.output ++
        [⟨(ts : ℚ) / 1000000, name, DecodedValue.double (some (13 / 4 : ℚ))⟩] } := by
  rw [@processRecord_data st ⟨id, ts, [0, 0, 0, 0, 0, 0, 10, 64]⟩ hid]
  dsimp only
  rw [hlook]
  dsimp only
  simp only [extract_value_from_entry]
  rw [if_neg (fun hc => absurd hc.2 (by decide))]
  simp only [eq_self_iff_true, if_true]
  have hgd : DataLogRecord.getDouble ⟨id, ts, [0, 0, 0, 0, 0, 0, 10, 64]⟩ =
      some (some (13 / 4 : ℚ)) := by
    unfold DataLogRecord.getDouble
    rw [if_neg (fun h => h rfl)]
    have hlv : leVal [0, 0, 0, 0, 0, 0, 10, 64] = 0x400A000000000000 := by
      norm_num [leVal]
    rw [show (⟨id, ts, [0, 0, 0, 0, 0, 0, 10, 64]⟩ : DataLogRecord).data =
        [0, 0, 0, 0, 0, 0, 10, 64] from rfl, hlv, decodeF64_value_325]
  rw [hgd]
  rfl

/-- Witness for **C8**: a concrete state with stream id 3 declared as a
`double` stream, receiving the 3.25 payload at timestamp 2. -/
theorem c8_double_payload_emits_value_witness :
    processRecord ⟨[], false, [(3, ⟨3, [], ascii "double", []⟩)]⟩
        ⟨3, 2, [0, 0, 0, 0, 0, 0, 10, 64]⟩ =
      some { (⟨[], false, [(3, ⟨3, [], ascii "double", []⟩)]⟩ : WalkState) with
        output := [] ++ [⟨(2 : ℚ) / 1000000, [], DecodedValue.double (some (13 / 4 : ℚ))⟩] } :=
  c8_double_payload_emits_value ⟨[], false, [(3, ⟨3, [], ascii "double", []⟩)]⟩
    3 2 3 [] [] (by decide) (by decide)

/-- **C1 (amended).** Control-record decode failures are caught inside the
walk and only set the aggregate error flag — `processRecord` always
returns a state for a control record.  But a size/shape mismatch while
decoding a data record's payload (here: a non-8-byte payload on a stream
declared `double`) is an uncaught `TypeError`: `processRecord` returns
`none`, aborting `convert_data_log_to_list` instead of continuing. -/
theorem c1_control_caught_data_mismatch_aborts (st : WalkState) (r : DataLogRecord) :
    (r.entry = 0 → (processRecord st r).isSome = true) ∧
    (∀ eid name meta,
      dictGet st.entries r.entry = some ⟨eid, name, ascii "double", meta⟩ →
      r.entry ≠ 0 → r.data.length ≠ 8 → processRecord st r = none) := by
  constructor
  · intro h0
    unfold processRecord
    split_ifs with h1 h2 h3 h4
    · rfl
    · rfl
    · rfl
    · rfl
    · exact absurd (by simp [DataLogRecord.isControl, h0]) h4
  · intro eid name meta hlook hne hlen
    rw [processRecord_data hne, hlook]
    dsimp only
    simp only [extract_value_from_entry]
    rw [if_neg (fun hc => absurd hc.2 (by decide))]
    simp only [eq_self_iff_true, if_true]
    have hgd : DataLogRecord.getDouble r = none := by
      unfold DataLogRecord.getDouble
      rw [if_pos hlen]
    rw [hgd]
    rfl

/-- Counterexample for **C1** as stated: a log whose records all frame
correctly, containing a declare of stream 1 as `double` followed by a data
record on stream 1 with a 3-byte payload.  The shape mismatch is not
caught: `convert_data_log_to_list` aborts (returns no output list at all)
instead of recording a per-record decode error and continuing. -/
theorem c1_shape_mismatch_aborts_counterexample :
    convert_data_log_to_list
      ([87, 80, 73, 76, 79, 71, 0, 1, 0, 0, 0, 0] ++
       ([0, 0, 24, 0] ++
         ([0] ++ [1, 0, 0, 0] ++ [1, 0, 0, 0, 97] ++
          ([6, 0, 0, 0] ++ ascii "double") ++ [0, 0, 0, 0])) ++
       ([0, 1, 3, 0] ++ [0, 0, 0])) = none := by
  decide

/-- Witness for **C1 (amended)**: a control record is processed without
aborting, while a 3-byte payload on a declared `double` stream aborts. -/
theorem c1_control_caught_data_mismatch_aborts_witness :
    (processRecord ⟨[], false, []⟩ ⟨0, 0, []⟩).isSome = true ∧
    processRecord ⟨[], false, [(1, ⟨1, [97], ascii "double", []⟩)]⟩
      ⟨1, 5, [0, 0, 0]⟩ = none :=
  ⟨(c1_control_caught_data_mismatch_aborts ⟨[], false, []⟩ ⟨0, 0, []⟩).1 rfl,
   (c1_control_caught_data_mismatch_aborts
      ⟨[], false, [(1, ⟨1, [97], ascii "double", []⟩)]⟩ ⟨1, 5, [0, 0, 0]⟩).2
     1 [97] [] (by decide) (by decide) (by decide)⟩
